import Mathlib

/-!
Shallow embedding of the pharmacy sales-agent backend
(services PromotionService, AIAgentService, ProductService) and proofs
about its documented behaviour.

Conventions of the embedding:
* JavaScript Date values are carried as a record of the fields the code
  actually reads: the calendar components returned by getFullYear,
  getMonth and getDate, and the epoch-millisecond value used by Date
  comparisons and Date.now arithmetic.  Calendar-day subtraction
  (setDate(getDate() - 30)) is rendered as subtracting 30 * 86400000
  milliseconds, i.e. a fixed-offset clock with no DST jumps.
* JavaScript truthiness on nullable numeric and string columns is made
  explicit: null/undefined and 0 (resp. the empty string) are falsy.
* Monetary and percentage values are rationals.
* Database tables are lists of rows; SQL lookups, updates and upserts
  are list operations on them.  Fallible external calls (the language
  model, a database query that may error) are inputs of type Except.
-/

namespace Pharmacy

/-- A JavaScript Date as observed by the source: calendar fields
(getFullYear / getMonth / getDate) next to the epoch-millisecond value
(valueOf) used in comparisons. -/
structure JsDate where
  year : Int
  month : Int
  day : Int
  ms : Int
deriving Repr, DecidableEq

/-- Milliseconds per day, the 24 * 60 * 60 * 1000 constant of the source. -/
def msPerDay : Int := 86400000

/-- Helper for strIncludes: does pat occur as a contiguous run of l. -/
def charsInclude (pat : List Char) : List Char → Bool
  | [] => pat.isEmpty
  | c :: t => pat.isPrefixOf (c :: t) || charsInclude pat t

/-- JavaScript String.prototype.includes: substring containment. -/
def strIncludes (s pat : String) : Bool := charsInclude pat.data s.data

/-- Helper for jsSplitComma: split a character list at a separator.  The
result is always non-empty ("" splits to [""]); the inner [] branch is
unreachable. -/
def splitAtSep (sep : Char) : List Char → List (List Char)
  | [] => [[]]
  | c :: t =>
    match splitAtSep sep t with
    | [] => [[c]]
    | h :: r => if c == sep then [] :: h :: r else (c :: h) :: r

/-- JavaScript String.prototype.split with separator ",". -/
def jsSplitComma (s : String) : List String :=
  (splitAtSep ',' s.data).map String.mk

/-- Lexicographic order on character lists, for the SQL ORDER BY name. -/
def charListLe : List Char → List Char → Bool
  | [], _ => true
  | _ :: _, [] => false
  | a :: s, b :: t => if a == b then charListLe s t else decide (a < b)

/-- String comparison for ORDER BY name. -/
def strLe (a b : String) : Bool := charListLe a.data b.data

/-- JavaScript String.prototype.toLowerCase (ASCII, as used on the
medical-conditions text and symptom names). -/
def strLower (s : String) : String := String.mk (s.data.map Char.toLower)

/-- JavaScript truthiness of a nullable numeric column: null and 0 are falsy. -/
def truthyQ : Option ℚ → Bool
  | none => false
  | some x => x != 0

/-- JavaScript truthiness of a nullable integer column: null and 0 are falsy. -/
def truthyNat : Option Nat → Bool
  | none => false
  | some n => n != 0

/-- JavaScript truthiness of a nullable string column: null and "" are falsy. -/
def truthyStr : Option String → Bool
  | none => false
  | some s => s != ""

/-- A row of the customers table, restricted to the columns the
eligibility and promotion code reads. -/
structure Customer where
  customer_id : String
  date_of_birth : Option JsDate
  registration_date : JsDate
  loyalty_points : Int
  medical_conditions : Option String
  prescription_count : Int
deriving Repr, DecidableEq

/-- A row of the products table, restricted to the columns read by the
search and eligibility code.  id is the SERIAL primary key the dedup in
AIAgentService.searchProducts compares on. -/
structure Product where
  id : Nat
  product_id : String
  name : String
  category : String
  description : String
deriving Repr, DecidableEq

/-- A row of the promotions table, restricted to the columns the
promotion code reads.  Dates are epoch milliseconds; current_usage and
total_usage_limit are the usage counters. -/
structure Promotion where
  promotion_id : String
  name : String
  description : String
  start_date : Int
  end_date : Int
  discount_percentage : Option ℚ
  discount_amount : Option ℚ
  min_purchase_amount : Option ℚ
  max_discount_amount : Option ℚ
  applicable_products : Option String
  applicable_categories : Option String
  customer_segments : Option String
  total_usage_limit : Option Nat
  current_usage : Nat
  status : String
deriving Repr, DecidableEq

namespace PromotionService

/-- PromotionService.calculateAge: year difference, decremented by one
when the birthday has not yet occurred this year; 0 when the birth date
is null. -/
def calculateAge (birthDate : Option JsDate) (today : JsDate) : Int :=
  match birthDate with
  | none => 0
  | some birth =>
    let age := today.year - birth.year
    let monthDiff := today.month - birth.month
    if monthDiff < 0 ∨ (monthDiff = 0 ∧ today.day < birth.day) then age - 1 else age

/-- The product/category part of PromotionService.checkCustomerEligibility
(lines 99-116): when applicable_products (resp. applicable_categories) is
truthy and the candidate list is non-empty, some candidate must belong to
the comma-split set, else the check fails. -/
def productCategoryCheck (promotion : Promotion) (products : List Product) : Bool :=
  let prodFail :=
    truthyStr promotion.applicable_products &&
    !(products.any fun p =>
        (jsSplitComma (promotion.applicable_products.getD "")).contains p.product_id) &&
    decide (products.length > 0)
  let catFail :=
    truthyStr promotion.applicable_categories &&
    !(products.any fun p =>
        (jsSplitComma (promotion.applicable_categories.getD "")).contains p.category) &&
    decide (products.length > 0)
  !prodFail && !catFail

/-- The new_customers condition shared by both eligibility code paths:
registration strictly later than thirty days (in milliseconds) before
now.  PromotionService builds the bound with setDate(getDate() - 30) on
the current instant, AIAgentService with Date.now() - 30*24*60*60*1000;
on a fixed-offset clock both equal today.ms - 30 * msPerDay. -/
def newCustomerCond (customer : Customer) (today : JsDate) : Bool :=
  decide (customer.registration_date.ms > today.ms - 30 * msPerDay)

/-- The diabetic_customers condition of checkCustomerEligibility: the
medical-conditions text is truthy and its lowercase form contains
"diabetes". -/
def diabeticCond (customer : Customer) : Bool :=
  truthyStr customer.medical_conditions &&
  strIncludes (strLower (customer.medical_conditions.getD "")) "diabetes"

/-- PromotionService.checkCustomerEligibility.  When customer_segments is
truthy and not the exact string "all", the field is comma-split and each
declared tag whose condition holds returns true immediately; if the split
list does not contain "all" the function then returns false, otherwise it
falls through to the product/category check, as it also does when
customer_segments is falsy or exactly "all". -/
def checkCustomerEligibility (customer : Customer) (promotion : Promotion)
    (products : List Product) (today : JsDate) : Bool :=
  if truthyStr promotion.customer_segments &&
      (promotion.customer_segments.getD "" != "all") then
    let segments := jsSplitComma (promotion.customer_segments.getD "")
    if segments.contains "seniors" &&
        decide (calculateAge customer.date_of_birth today ≥ 65) then true
    else if segments.contains "new_customers" && newCustomerCond customer today then true
    else if segments.contains "loyalty_members" &&
        decide (customer.loyalty_points > 100) then true
    else if segments.contains "diabetic_customers" && diabeticCond customer then true
    else if segments.contains "regular_customers" &&
        decide (customer.prescription_count > 5) then true
    else if !segments.contains "all" then false
    else productCategoryCheck promotion products
  else productCategoryCheck promotion products

end PromotionService

namespace AIAgentService

/-- AIAgentService.calculateAge: same arithmetic as the PromotionService
version but with no null guard; a missing birth date makes every field
NaN, rendered here as none (all comparisons with NaN are false). -/
def calculateAge (birthDate : Option JsDate) (today : JsDate) : Option Int :=
  match birthDate with
  | none => none
  | some birth =>
    let age := today.year - birth.year
    let monthDiff := today.month - birth.month
    some (if monthDiff < 0 ∨ (monthDiff = 0 ∧ today.day < birth.day) then age - 1 else age)

/-- AIAgentService.checkCustomerSegmentEligibility: substring tests
(String.includes) on the raw customer_segments string, checking only the
seniors, new_customers and loyalty_members conditions. -/
def checkCustomerSegmentEligibility (customer : Customer) (segments : String)
    (today : JsDate) : Bool :=
  let customerAge := calculateAge customer.date_of_birth today
  if strIncludes segments "seniors" &&
      (match customerAge with | some a => decide (a ≥ 65) | none => false) then true
  else if strIncludes segments "new_customers" &&
      PromotionService.newCustomerCond customer today then true
  else if strIncludes segments "loyalty_members" &&
      decide (customer.loyalty_points > 100) then true
  else false

end AIAgentService

namespace PromotionService

/-- The failure reasons applyPromotion reports in its success:false
result objects.  minPurchase carries the min_purchase_amount that is
interpolated into the reported message. -/
inductive ApplyError where
  | promotionNotFound
  | customerNotFound
  | notEligible
  | minPurchase (required : ℚ)
deriving Repr, DecidableEq

/-- The success:true result object of applyPromotion. -/
structure ApplyOk where
  discountAmount : ℚ
  finalTotal : ℚ
  promotionId : String
  promotionName : String
  promotionDescription : String
deriving Repr, DecidableEq

/-- PromotionService.getPromotionById: SELECT by unique promotion_id. -/
def getPromotionById (promotions : List Promotion) (promotionId : String) :
    Option Promotion :=
  promotions.find? fun p => p.promotion_id == promotionId

/-- The customer lookup applyPromotion performs: SELECT by unique
customer_id. -/
def findCustomerById (customers : List Customer) (customerId : String) :
    Option Customer :=
  customers.find? fun c => c.customer_id == customerId

/-- The per-row effect of incrementPromotionUsage: current_usage rises by
one, and when total_usage_limit is truthy and the new usage meets or
exceeds it, status becomes expired in the same step. -/
def bumpUsage (p : Promotion) : Promotion :=
  let p1 := { p with current_usage := p.current_usage + 1 }
  if truthyNat p1.total_usage_limit &&
      decide (p1.current_usage ≥ p1.total_usage_limit.getD 0) then
    { p1 with status := "expired" }
  else p1

/-- PromotionService.incrementPromotionUsage: the UPDATE touches the rows
whose promotion_id matches (at most one, the column is unique), applying
bumpUsage to them. -/
def incrementPromotionUsage (promotions : List Promotion) (promotionId : String) :
    List Promotion :=
  promotions.map fun p => if p.promotion_id == promotionId then bumpUsage p else p

/-- The WHERE clause of PromotionService.getActivePromotions: status is
the exact string active and the current date lies in [start_date,
end_date]. -/
def isActivePromotion (p : Promotion) (today : JsDate) : Bool :=
  p.status == "active" && decide (p.start_date ≤ today.ms) &&
    decide (today.ms ≤ p.end_date)

/-- The maximum-discount clamp of applyPromotion (lines 177-180): when
max_discount_amount is truthy and the discount exceeds it, the discount
becomes the cap. -/
def clampDiscount (promotion : Promotion) (d : ℚ) : ℚ :=
  if truthyQ promotion.max_discount_amount &&
      decide (d > promotion.max_discount_amount.getD 0) then
    promotion.max_discount_amount.getD 0
  else d

/-- The discount computation of applyPromotion (lines 168-180): a truthy
discount_percentage yields orderTotal * pct / 100, else a truthy
discount_amount yields the flat amount, else 0; the result is then
clamped. -/
def discountAmountOf (promotion : Promotion) (orderTotal : ℚ) : ℚ :=
  clampDiscount promotion
    (if truthyQ promotion.discount_percentage then
      orderTotal * promotion.discount_percentage.getD 0 / 100
    else if truthyQ promotion.discount_amount then
      promotion.discount_amount.getD 0
    else 0)

/-- PromotionService.applyPromotion over a promotions table and a
customers table: look up the promotion and the customer, check
eligibility and the minimum purchase amount, compute the discount
(percentage first, else fixed amount, clamped by a truthy
max_discount_amount), increment usage, and return the result object
along with the updated promotions table.  Every branch returns a result;
nothing is thrown. -/
def applyPromotion (promotions : List Promotion) (customers : List Customer)
    (promotionId customerId : String) (orderTotal : ℚ) (products : List Product)
    (today : JsDate) : Except ApplyError ApplyOk × List Promotion :=
  match getPromotionById promotions promotionId with
  | none => (.error .promotionNotFound, promotions)
  | some promotion =>
    match findCustomerById customers customerId with
    | none => (.error .customerNotFound, promotions)
    | some customer =>
      if !checkCustomerEligibility customer promotion products today then
        (.error .notEligible, promotions)
      else if truthyQ promotion.min_purchase_amount &&
          decide (orderTotal < promotion.min_purchase_amount.getD 0) then
        (.error (.minPurchase (promotion.min_purchase_amount.getD 0)), promotions)
      else
        let discountAmount : ℚ := discountAmountOf promotion orderTotal
        (.ok { discountAmount := discountAmount,
               finalTotal := orderTotal - discountAmount,
               promotionId := promotion.promotion_id,
               promotionName := promotion.name,
               promotionDescription := promotion.description },
         incrementPromotionUsage promotions promotionId)

end PromotionService

/-- One chat message as stored in the conversation history. -/
structure ChatTurn where
  role : String
  content : String
deriving Repr, DecidableEq

/-- The in-memory conversation context object of AIAgentService.  The
fields are optional because the fallback object built inside
updateConversationContext carries only recent_messages.  The context_data
column is not modelled: the core never reads it and no claim mentions
it. -/
structure ConversationContext where
  customer_id : Option String
  recent_messages : List ChatTurn
  last_intent : Option String
  last_updated : Option Int
  created_at : Option Int
deriving Repr, DecidableEq

/-- A row of the conversations table (customer_id is UNIQUE). -/
structure ConversationRow where
  customer_id : String
  recent_messages : List ChatTurn
  last_intent : Option String
  created_at : Int
  updated_at : Int
deriving Repr, DecidableEq

/-- A row of the conversation_logs analytics table, restricted to the
columns logConversation writes. -/
structure LogRow where
  customer_id : String
  user_message : String
  ai_response : String
  channel : String
  created_at : Int
deriving Repr, DecidableEq

/-- The in-memory Map this.conversations, as an association list. -/
abbrev Cache := List (String × ConversationContext)

/-- JavaScript Map.prototype.get. -/
def cacheGet (m : Cache) (k : String) : Option ConversationContext :=
  (List.find? (fun kv => kv.1 == k) m).map Prod.snd

/-- JavaScript Map.prototype.set: overwrite in place if the key exists
(a Map holds each key once), append otherwise. -/
def cacheSet : Cache → String → ConversationContext → Cache
  | [], k, v => [(k, v)]
  | kv :: t, k, v =>
    if kv.1 == k then (k, v) :: t else kv :: cacheSet t k v

/-- JavaScript slice(-n): the last n elements (the whole list when it is
shorter). -/
def jsTakeLast (n : Nat) (l : List ChatTurn) : List ChatTurn :=
  l.drop (l.length - n)

namespace AIAgentService

/-- A conversation context freshly loaded from a ConversationRow. -/
def contextOfRow (r : ConversationRow) : ConversationContext :=
  { customer_id := some r.customer_id
    recent_messages := r.recent_messages
    last_intent := r.last_intent
    last_updated := none
    created_at := some r.created_at }

/-- ORDER BY created_at DESC LIMIT 1 over the rows of one customer:
a row of maximal created_at (ties, which the SQL leaves unspecified,
resolved to the earlier row). -/
def mostRecentRow : List ConversationRow → Option ConversationRow
  | [] => none
  | r :: t =>
    match mostRecentRow t with
    | none => some r
    | some b => if b.created_at > r.created_at then some b else some r

/-- The empty context synthesized by the error path of
getConversationContext (no created_at field in the source object). -/
def emptyContextOnError (customerId : String) : ConversationContext :=
  { customer_id := some customerId, recent_messages := [], last_intent := none,
    last_updated := none, created_at := none }

/-- AIAgentService.getConversationContext.  loadOutcome is the outcome of
the SELECT on the conversations table: an error, or the table rows.  The
cache is consulted first; on a miss the most recent row for the customer
is loaded (and cached), or an empty context is synthesized (and cached);
on a query error the empty context is returned without caching.  Every
branch returns a context: the function never fails. -/
def getConversationContext (cache : Cache)
    (loadOutcome : Except String (List ConversationRow))
    (customerId : String) (now : Int) : ConversationContext × Cache :=
  match cacheGet cache customerId with
  | some ctx => (ctx, cache)
  | none =>
    match loadOutcome with
    | .error _ => (emptyContextOnError customerId, cache)
    | .ok rows =>
      let forCustomer := rows.filter fun r => r.customer_id == customerId
      let context :=
        match mostRecentRow forCustomer with
        | some r => contextOfRow r
        | none =>
          { customer_id := some customerId, recent_messages := [],
            last_intent := none, last_updated := none, created_at := some now }
      (context, cacheSet cache customerId context)

/-- AIAgentService.saveConversationContext: INSERT .. ON CONFLICT
(customer_id) DO UPDATE — overwrite the history columns and updated_at on
the existing row for the customer (customer_id is UNIQUE, so there is at
most one), insert a fresh row otherwise. -/
def saveConversationContext : List ConversationRow → String → List ChatTurn → Int →
    List ConversationRow
  | [], customerId, messages, now =>
    [{ customer_id := customerId, recent_messages := messages,
       last_intent := none, created_at := now, updated_at := now }]
  | r :: t, customerId, messages, now =>
    if r.customer_id == customerId then
      { r with recent_messages := messages, updated_at := now } :: t
    else r :: saveConversationContext t customerId messages now

/-- SELECT the (unique) conversations row of one customer. -/
def lookupConversation (table : List ConversationRow) (customerId : String) :
    Option ConversationRow :=
  table.find? fun r => r.customer_id == customerId

/-- The bare fallback object of updateConversationContext, carrying only
an empty recent_messages list. -/
def bareContext : ConversationContext :=
  { customer_id := none, recent_messages := [], last_intent := none,
    last_updated := none, created_at := none }

/-- AIAgentService.updateConversationContext: read the cached context (or
the bare fallback object), append the user turn and the assistant turn,
truncate to the last 10 messages when longer, record the intent and the
update time, write the cache and upsert the row. -/
def updateConversationContext (cache : Cache) (table : List ConversationRow)
    (customerId userMessage aiResponse intent : String) (now : Int) :
    Cache × List ConversationRow :=
  let context := (cacheGet cache customerId).getD bareContext
  let appended := context.recent_messages ++
    [{ role := "user", content := userMessage },
     { role := "assistant", content := aiResponse }]
  let truncated := if appended.length > 10 then jsTakeLast 10 appended else appended
  let context2 := { context with
    recent_messages := truncated
    last_intent := some intent
    last_updated := some now }
  (cacheSet cache customerId context2,
   saveConversationContext table customerId truncated now)

/-- The entities slot of a message analysis, as a JSON value: either an
array (the shape of the hardcoded fallback, entities: []) or an object
with optional products, symptoms and categories lists. -/
inductive EntitiesValue where
  | jarr (elems : List String)
  | jobj (products symptoms categories : Option (List String))
deriving Repr, DecidableEq

/-- JavaScript entities.products: a field access that yields undefined on
an array value. -/
def entProducts : EntitiesValue → Option (List String)
  | .jarr _ => none
  | .jobj p _ _ => p

/-- JavaScript entities.symptoms. -/
def entSymptoms : EntitiesValue → Option (List String)
  | .jarr _ => none
  | .jobj _ s _ => s

/-- JavaScript entities.categories. -/
def entCategories : EntitiesValue → Option (List String)
  | .jarr _ => none
  | .jobj _ _ c => c

/-- The structured result of analyzeMessage. -/
structure Analysis where
  intent : String
  confidence : ℚ
  entities : EntitiesValue
  sentiment : String
  urgency : String
deriving Repr, DecidableEq

/-- The hardcoded fallback object of analyzeMessage.  Its entities field
is the empty array literal of the source, not an empty object. -/
def fallbackAnalysis : Analysis :=
  { intent := "general_inquiry", confidence := 1/2,
    entities := .jarr [], sentiment := "neutral", urgency := "low" }

/-- AIAgentService.analyzeMessage.  outcome stands for the classification
call followed by JSON.parse: an error when the call fails or the content
is unparseable, otherwise the parsed analysis.  The catch substitutes the
fallback; nothing escapes to the caller. -/
def analyzeMessage (outcome : Except String Analysis) : Analysis :=
  match outcome with
  | .error _ => fallbackAnalysis
  | .ok a => a

/-- The fallback object exactly as the specification words it, with an
empty OBJECT in the entities slot, for comparison with the source. -/
def specFallbackAnalysis : Analysis :=
  { intent := "general_inquiry", confidence := 1/2,
    entities := .jobj none none none, sentiment := "neutral", urgency := "low" }

/-- The reply text and token usage returned by the reply-generation
call. -/
structure GenResult where
  content : String
  total_tokens : Nat
deriving Repr, DecidableEq

/-- AIAgentService.generateResponse: passes a successful completion
through and converts any failure of the external call into the thrown
error with the fixed message. -/
def generateResponse (callOutcome : Except String GenResult) :
    Except String GenResult :=
  match callOutcome with
  | .error _ => .error "Failed to generate response"
  | .ok r => .ok r

/-- The fixed apology text of the processMessage catch block. -/
def apologyMessage : String :=
  "I apologize, but I\x27m experiencing some technical difficulties. Please try again in a moment, or contact our support team if the issue persists."

/-- The result object of processMessage: the success shape carries the
reply, the intent and the confidence; the catch shape carries the apology
and the error message (its other fields stay absent). -/
structure ProcessOut where
  response : String
  error : Option String
  intent : Option String
  confidence : Option ℚ
deriving Repr, DecidableEq

/-- The mutable state processMessage touches: the context cache, the
conversations table and the conversation_logs table. -/
structure AgentState where
  cache : Cache
  conversations : List ConversationRow
  logs : List LogRow

/-- AIAgentService.processMessage.  The three Except inputs stand for the
context SELECT, the classification call (with its JSON parse) and the
reply-generation call.  Context load and analysis recover internally;
executeActions catches its own errors and does not touch this state.  A
reply-generation failure is the one error reaching the catch block: it
yields the apology object, and neither updateConversationContext nor
logConversation runs for that attempt.  On success both run before the
result is returned.  The two booleans record exactly those two
invocations. -/
def processMessage (st : AgentState) (customerId message channel : String)
    (loadOutcome : Except String (List ConversationRow))
    (analysisOutcome : Except String Analysis)
    (genCallOutcome : Except String GenResult) (now : Int) :
    ProcessOut × AgentState × Bool × Bool :=
  let loaded := getConversationContext st.cache loadOutcome customerId now
  let cache1 := loaded.2
  let messageAnalysis := analyzeMessage analysisOutcome
  match generateResponse genCallOutcome with
  | .error e =>
    ({ response := apologyMessage, error := some e, intent := none,
       confidence := none },
     { st with cache := cache1 }, false, false)
  | .ok response =>
    let updated := updateConversationContext cache1 st.conversations customerId
      message response.content messageAnalysis.intent now
    let logs2 := st.logs ++
      [{ customer_id := customerId, user_message := message,
         ai_response := response.content, channel := channel, created_at := now }]
    ({ response := response.content, error := none,
       intent := some messageAnalysis.intent,
       confidence := some messageAnalysis.confidence },
     { cache := updated.1, conversations := updated.2, logs := logs2 },
     true, true)

end AIAgentService

/-- SQL ILIKE with a pattern of the shape percent-term-percent:
case-insensitive substring containment. -/
def ilikeContains (s term : String) : Bool :=
  strIncludes (strLower s) (strLower term)

/-- Stable insertion step for sortStable. -/
def insertStable (le : Product → Product → Bool) (a : Product) :
    List Product → List Product
  | [] => [a]
  | b :: t => if le a b then a :: b :: t else b :: insertStable le a t

/-- Stable sort modelling SQL ORDER BY: equal keys keep table order
(which ties Postgres leaves unspecified; the rows are already abstract
here). -/
def sortStable (le : Product → Product → Bool) (l : List Product) : List Product :=
  l.foldr (insertStable le) []

namespace ProductService

/-- ProductService.searchProducts: rows whose name, description or
category contains the term case-insensitively, ordered name matches
first, then description matches, then the rest (ties keep table order),
limited to 10. -/
def searchProducts (table : List Product) (searchTerm : String) : List Product :=
  let matching := table.filter fun p =>
    ilikeContains p.name searchTerm || ilikeContains p.description searchTerm ||
      ilikeContains p.category searchTerm
  let rank : Product → Nat := fun p =>
    if ilikeContains p.name searchTerm then 1
    else if ilikeContains p.description searchTerm then 2
    else 3
  (sortStable (fun a b => rank a ≤ rank b) matching).take 10

/-- The hardcoded symptom-to-categories map of searchBySymptom. -/
def symptomCategories : String → List String
  | "headache" => ["Pain Relief"]
  | "pain" => ["Pain Relief"]
  | "cold" => ["Cold & Flu"]
  | "flu" => ["Cold & Flu"]
  | "allergy" => ["Allergy Relief"]
  | "diabetes" => ["Diabetes Care"]
  | "vitamin" => ["Vitamins", "Supplements"]
  | "supplement" => ["Supplements"]
  | _ => []

/-- ProductService.searchBySymptom: map the lowercased symptom to
categories; with no mapping, fall back to the general search; otherwise
rows of those categories ordered by name, limited to 10. -/
def searchBySymptom (table : List Product) (symptom : String) : List Product :=
  let categories := symptomCategories (strLower symptom)
  if categories.isEmpty then searchProducts table symptom
  else
    (sortStable (fun a b => strLe a.name b.name)
      (table.filter fun p => categories.contains p.category)).take 10

/-- ProductService.getProductsByCategory with its default limit of 20:
rows of the exact category ordered by name. -/
def getProductsByCategory (table : List Product) (category : String) : List Product :=
  (sortStable (fun a b => strLe a.name b.name)
    (table.filter fun p => p.category == category)).take 20

end ProductService

/-- JavaScript Array.prototype.filter with an index-aware callback: the
loop that underlies the dedup in AIAgentService.searchProducts. -/
def jsFilterWithIndex (cb : Product → Nat → Bool) : List Product → Nat → List Product
  | [], _ => []
  | a :: t, i =>
    if cb a i then a :: jsFilterWithIndex cb t (i + 1)
    else jsFilterWithIndex cb t (i + 1)

/-- The dedup of AIAgentService.searchProducts, literally:
products.filter((product, index, self) => index === self.findIndex(p =>
p.id === product.id)). -/
def jsDedupById (l : List Product) : List Product :=
  jsFilterWithIndex (fun p i => l.findIdx (fun q => q.id == p.id) == i) l 0

/-- Keep-first-occurrence dedup by id, the reference form jsDedupById is
proved equal to. -/
def keepFirstById : List Product → List Product
  | [] => []
  | a :: t => a :: keepFirstById (t.filter fun q => !(q.id == a.id))
termination_by l => l.length
decreasing_by
  simpa using Nat.lt_succ_of_le (List.length_filter_le _ _)

namespace AIAgentService

/-- AIAgentService.searchProducts: concatenate, entity by entity, the
name searches, the symptom searches and the category searches, then
dedup on the id field and keep the first 10. -/
def searchProducts (table : List Product) (entities : EntitiesValue) :
    List Product :=
  let fromNames := (entProducts entities).getD [] |>.flatMap fun t =>
    ProductService.searchProducts table t
  let fromSymptoms := (entSymptoms entities).getD [] |>.flatMap fun s =>
    ProductService.searchBySymptom table s
  let fromCategories := (entCategories entities).getD [] |>.flatMap fun c =>
    ProductService.getProductsByCategory table c
  let products := fromNames ++ fromSymptoms ++ fromCategories
  (jsDedupById products).take 10

end AIAgentService

/-- Segment-eligibility rule exactly as the specification words it (the
rule claim C1 asserts for both code paths): pass unconditionally when
customer_segments is unset or equals "all"; otherwise comma-split into
tags and take the strict OR of the five declared tag conditions
(seniors, new_customers within the last 30 days, loyalty_members,
diabetic_customers, regular_customers). -/
def specSegmentEligible (customer : Customer) (customer_segments : Option String)
    (today : JsDate) : Bool :=
  match customer_segments with
  | none => true
  | some s =>
    if s = "all" then true
    else
      let tags := jsSplitComma s
      (tags.contains "seniors" &&
        decide (PromotionService.calculateAge customer.date_of_birth today ≥ 65)) ||
      (tags.contains "new_customers" &&
        decide (today.ms - customer.registration_date.ms ≤ 30 * msPerDay)) ||
      (tags.contains "loyalty_members" && decide (customer.loyalty_points > 100)) ||
      (tags.contains "diabetic_customers" && PromotionService.diabeticCond customer) ||
      (tags.contains "regular_customers" && decide (customer.prescription_count > 5))

/-- The new_customers boundary rule exactly as claim C9 words it:
registration within the last 30 days, compared at day granularity with an
inclusive boundary at exactly 30 days. -/
def specNewCustomerDay (registrationMs nowMs : Int) : Bool :=
  decide (nowMs / msPerDay - registrationMs / msPerDay ≤ 30)

/-! Concrete inputs used by the counterexamples and witnesses.
now0.ms is midnight of 2025-10-11 UTC (month fields are the 0-based
values of getMonth). -/

/-- A fixed current instant. -/
def now0 : JsDate := ⟨2025, 9, 11, 1760140800000⟩

/-- A 30-year-old diabetic customer with ten prescriptions, registered
400 days before now0, with no loyalty points. -/
def diabCustomer : Customer :=
  { customer_id := "CUST-D", date_of_birth := some ⟨1995, 3, 10, 797472000000⟩,
    registration_date := ⟨2024, 8, 6, 1725580800000⟩, loyalty_points := 0,
    medical_conditions := some "Type 2 diabetes", prescription_count := 10 }

/-- A promotion restricted to the diabetic_customers segment. -/
def diabPromo : Promotion :=
  { promotion_id := "PROMO-DIA", name := "Diabetes care week", description := "demo",
    start_date := 0, end_date := 2000000000000, discount_percentage := some 5,
    discount_amount := none, min_purchase_amount := none, max_discount_amount := none,
    applicable_products := none, applicable_categories := none,
    customer_segments := some "diabetic_customers", total_usage_limit := none,
    current_usage := 0, status := "active" }

/-- A customer registered exactly 30 days (in milliseconds) before
now0, otherwise matching no segment. -/
def boundaryCustomer : Customer :=
  { customer_id := "CUST-B", date_of_birth := some ⟨1990, 3, 10, 639705600000⟩,
    registration_date := ⟨2025, 8, 11, 1757548800000⟩, loyalty_points := 0,
    medical_conditions := none, prescription_count := 0 }

/-- A customer registered five days before now0. -/
def recentCustomer : Customer :=
  { customer_id := "CUST-R", date_of_birth := some ⟨1990, 3, 10, 639705600000⟩,
    registration_date := ⟨2025, 9, 6, 1759708800000⟩, loyalty_points := 0,
    medical_conditions := none, prescription_count := 0 }

/-- A promotion restricted to the new_customers segment. -/
def newCustPromo : Promotion :=
  { promotion_id := "PROMO-NEW", name := "Welcome offer", description := "demo",
    start_date := 0, end_date := 2000000000000, discount_percentage := some 15,
    discount_amount := none, min_purchase_amount := none, max_discount_amount := none,
    applicable_products := none, applicable_categories := none,
    customer_segments := some "new_customers", total_usage_limit := none,
    current_usage := 0, status := "active" }

/-- An unrestricted 10-percent promotion with a single-use limit. -/
def pctPromo : Promotion :=
  { promotion_id := "PROMO10", name := "Ten percent off", description := "demo",
    start_date := 0, end_date := 2000000000000, discount_percentage := some 10,
    discount_amount := none, min_purchase_amount := none, max_discount_amount := none,
    applicable_products := none, applicable_categories := none,
    customer_segments := none, total_usage_limit := some 1,
    current_usage := 0, status := "active" }

/-- The promotions table of the witnesses. -/
def demoPromotions : List Promotion := [pctPromo]

/-- The customers table of the witnesses. -/
def demoCustomers : List Customer := [diabCustomer, boundaryCustomer]

/-- Two pain-relief rows of the products table. -/
def aspirinRow : Product :=
  { id := 1, product_id := "PROD-ASP", name := "Aspirin", category := "Pain Relief",
    description := "aspirin tablets" }

/-- Second demo product row. -/
def ibuprofenRow : Product :=
  { id := 2, product_id := "PROD-IBU", name := "Ibuprofen", category := "Pain Relief",
    description := "ibuprofen tablets" }

/-- The products table of the witnesses. -/
def demoProducts : List Product := [aspirinRow, ibuprofenRow]

/-- Extracted entities naming one product and one symptom. -/
def demoEntities : AIAgentService.EntitiesValue :=
  .jobj (some ["aspirin"]) (some ["headache"]) none

/-! Theorems. -/

/-- An early-return chain of five guarded returns followed by
return false is the disjunction of the guards. -/
theorem boolChainFive (c1 c2 c3 c4 c5 : Bool) :
    (if c1 then true else if c2 then true else if c3 then true
     else if c4 then true else if c5 then true else false)
      = (c1 || c2 || c3 || c4 || c5) := by
  cases c1 <;> cases c2 <;> cases c3 <;> cases c4 <;> cases c5 <;> rfl

/-- An early-return chain of three guarded returns followed by
return false is the disjunction of the guards. -/
theorem boolChainThree (c1 c2 c3 : Bool) :
    (if c1 then true else if c2 then true else if c3 then true else false)
      = (c1 || c2 || c3) := by
  cases c1 <;> cases c2 <;> cases c3 <;> rfl

/-- C6 (amended: the fallback carries an empty ARRAY in its entities
slot, not an empty object).  Whenever the classification call fails or
its content does not parse, analyzeMessage returns the hardcoded
fallback analysis — general_inquiry, confidence 0.5, entities [],
neutral sentiment, low urgency — and, being total, never throws to its
caller. -/
theorem claim6_fallback (e : String) :
    AIAgentService.analyzeMessage (.error e)
      = { intent := "general_inquiry", confidence := 1/2,
          entities := .jarr [], sentiment := "neutral", urgency := "low" } := rfl

/-- C6 counterexample: the claim says the resolver returns exactly the
object with entities: an empty object; the source fallback instead has
entities: an empty array, so on a malformed response the returned value
differs from the claimed one. -/
theorem claim6_counterexample :
    AIAgentService.analyzeMessage (.error "malformed")
      ≠ AIAgentService.specFallbackAnalysis := by
  simp [AIAgentService.analyzeMessage, AIAgentService.fallbackAnalysis,
    AIAgentService.specFallbackAnalysis]

/-- C4: when the reply-generation call fails, processMessage returns the
fixed apology text together with the error message of the rethrown
failure, the append-turn and log-turn flags are false for that attempt,
and the conversations table and the analytics log are unchanged; on a
successful generation both side effects are invoked before the reply is
returned. -/
theorem claim4_processMessage (st : AIAgentService.AgentState)
    (cid msg channel : String) (lo : Except String (List ConversationRow))
    (ao : Except String AIAgentService.Analysis) (now : Int) :
    (∀ e : String,
      (AIAgentService.processMessage st cid msg channel lo ao (.error e) now).1.response
          = AIAgentService.apologyMessage
      ∧ (AIAgentService.processMessage st cid msg channel lo ao (.error e) now).1.error
          = some "Failed to generate response"
      ∧ (AIAgentService.processMessage st cid msg channel lo ao (.error e) now).2.2.1 = false
      ∧ (AIAgentService.processMessage st cid msg channel lo ao (.error e) now).2.2.2 = false
      ∧ (AIAgentService.processMessage st cid msg channel lo ao (.error e) now).2.1.conversations
          = st.conversations
      ∧ (AIAgentService.processMessage st cid msg channel lo ao (.error e) now).2.1.logs
          = st.logs)
    ∧ (∀ g : AIAgentService.GenResult,
      (AIAgentService.processMessage st cid msg channel lo ao (.ok g) now).2.2.1 = true
      ∧ (AIAgentService.processMessage st cid msg channel lo ao (.ok g) now).2.2.2 = true
      ∧ (AIAgentService.processMessage st cid msg channel lo ao (.ok g) now).1.response
          = g.content
      ∧ (AIAgentService.processMessage st cid msg channel lo ao (.ok g) now).1.error = none) := by
  constructor
  · intro e
    simp [AIAgentService.processMessage, AIAgentService.generateResponse]
  · intro g
    simp [AIAgentService.processMessage, AIAgentService.generateResponse]

/-- C10: applyPromotion is total (it is a function into result objects,
nothing is thrown) and atomic on rejection: the promotions table it
returns is updated by the usage increment exactly when the result is a
success, and is returned untouched on every failure (promotion not
found, customer not found, ineligible, below the minimum purchase
amount). -/
theorem claim10_atomic (promotions : List Promotion) (customers : List Customer)
    (pid cid : String) (orderTotal : ℚ) (products : List Product) (today : JsDate) :
    (PromotionService.applyPromotion promotions customers pid cid orderTotal
        products today).2
      = if (PromotionService.applyPromotion promotions customers pid cid orderTotal
              products today).1.isOk
        then PromotionService.incrementPromotionUsage promotions pid
        else promotions := by
  unfold PromotionService.applyPromotion
  cases PromotionService.getPromotionById promotions pid with
  | none => rfl
  | some promotion =>
    cases PromotionService.findCustomerById customers cid with
    | none => rfl
    | some customer =>
      by_cases he : PromotionService.checkCustomerEligibility customer promotion
          products today = true
      · simp only [he, Bool.not_true, Bool.false_eq_true, if_false]
        by_cases hm : (truthyQ promotion.min_purchase_amount &&
            decide (orderTotal < promotion.min_purchase_amount.getD 0)) = true
        · simp [hm, Except.isOk, Except.toBool]
        · simp [hm, Except.isOk, Except.toBool]
      · have he2 : PromotionService.checkCustomerEligibility customer promotion
            products today = false := by
          cases h : PromotionService.checkCustomerEligibility customer promotion
              products today
          · rfl
          · exact absurd h he
        simp [he2, Except.isOk, Except.toBool]

/-- C3: incrementPromotionUsage raises current_usage by one on the
matched promotion; when a truthy total_usage_limit is met or exceeded by
the new count the status becomes expired in the same step; in
particular a promotion with total_usage_limit 1 is expired after one
application and from then on fails the status filter of
getActivePromotions on every date. -/
theorem claim3_usageLimit (p : Promotion) :
    (PromotionService.bumpUsage p).current_usage = p.current_usage + 1
    ∧ (truthyNat p.total_usage_limit = true →
        p.total_usage_limit.getD 0 ≤ p.current_usage + 1 →
        (PromotionService.bumpUsage p).status = "expired")
    ∧ (p.total_usage_limit = some 1 →
        (PromotionService.bumpUsage p).status = "expired"
        ∧ ∀ today : JsDate,
            PromotionService.isActivePromotion (PromotionService.bumpUsage p) today
              = false)
    ∧ (∀ promotions : List Promotion, ∀ pid : String,
        PromotionService.incrementPromotionUsage promotions pid
          = promotions.map fun q =>
              if q.promotion_id == pid then PromotionService.bumpUsage q else q) := by
  refine ⟨?_, ?_, ?_, fun _ _ => rfl⟩
  · unfold PromotionService.bumpUsage
    dsimp only
    split <;> rfl
  · intro ht hle
    unfold PromotionService.bumpUsage
    simp only [ht, Bool.true_and, ge_iff_le, decide_eq_true_eq]
    rw [if_pos hle]
  · intro h1
    have hs : (PromotionService.bumpUsage p).status = "expired" := by
      unfold PromotionService.bumpUsage
      simp [h1, truthyNat, Nat.succ_le_succ (Nat.zero_le _)]
    refine ⟨hs, fun today => ?_⟩
    unfold PromotionService.isActivePromotion
    rw [hs]
    rfl

/-- C3 witness: the single-use demo promotion is expired and inactive
after one application. -/
theorem claim3_witness :
    (PromotionService.bumpUsage pctPromo).status = "expired"
    ∧ PromotionService.isActivePromotion (PromotionService.bumpUsage pctPromo) now0
        = false :=
  ⟨((claim3_usageLimit pctPromo).2.2.1 rfl).1,
   ((claim3_usageLimit pctPromo).2.2.1 rfl).2 now0⟩

/-- C9 (amended): on both code paths, a promotion restricted to the
new_customers segment is granted exactly when the registration timestamp
is STRICTLY later than the current instant minus 30 days — an exclusive
boundary compared in milliseconds, not an inclusive day-granularity
comparison. -/
theorem claim9_amended (customer : Customer) (promotion : Promotion) (today : JsDate)
    (hs : promotion.customer_segments = some "new_customers") :
    PromotionService.checkCustomerEligibility customer promotion [] today
      = PromotionService.newCustomerCond customer today
    ∧ AIAgentService.checkCustomerSegmentEligibility customer "new_customers" today
      = PromotionService.newCustomerCond customer today
    ∧ (PromotionService.newCustomerCond customer today = true ↔
        today.ms - customer.registration_date.ms < 30 * msPerDay) := by
  have h1 : (jsSplitComma "new_customers").contains "seniors" = false := by decide
  have h2 : (jsSplitComma "new_customers").contains "new_customers" = true := by decide
  have h3 : (jsSplitComma "new_customers").contains "loyalty_members" = false := by decide
  have h4 : (jsSplitComma "new_customers").contains "diabetic_customers" = false := by decide
  have h5 : (jsSplitComma "new_customers").contains "regular_customers" = false := by decide
  have h6 : (jsSplitComma "new_customers").contains "all" = false := by decide
  have h7 : truthyStr (some "new_customers") = true := by decide
  have h8 : (("new_customers" : String) != "all") = true := by decide
  have g1 : strIncludes "new_customers" "seniors" = false := by decide
  have g2 : strIncludes "new_customers" "new_customers" = true := by decide
  have g3 : strIncludes "new_customers" "loyalty_members" = false := by decide
  refine ⟨?_, ?_, ?_⟩
  · simp only [PromotionService.checkCustomerEligibility, hs, Option.getD_some,
      h1, h2, h3, h4, h5, h6, h7, h8, Bool.false_and, Bool.true_and, Bool.and_true,
      Bool.not_false]
    cases hn : PromotionService.newCustomerCond customer today <;> simp [hn]
  · simp only [AIAgentService.checkCustomerSegmentEligibility, g1, g2, g3,
      Bool.false_and, Bool.true_and]
    cases hn : PromotionService.newCustomerCond customer today <;> simp [hn]
  · unfold PromotionService.newCustomerCond
    simp only [decide_eq_true_eq]
    omega

/-- C9 counterexample: a customer registered exactly 30 days (to the
millisecond) before now is, per the claim, inside the inclusive
day-granularity boundary; both code paths nevertheless reject the
new_customers segment, because they compare strictly at millisecond
granularity. -/
theorem claim9_counterexample :
    specNewCustomerDay boundaryCustomer.registration_date.ms now0.ms = true
    ∧ PromotionService.newCustomerCond boundaryCustomer now0 = false
    ∧ PromotionService.checkCustomerEligibility boundaryCustomer newCustPromo [] now0
        = false
    ∧ AIAgentService.checkCustomerSegmentEligibility boundaryCustomer "new_customers"
        now0 = false :=
  ⟨by decide, by decide, by decide, by decide⟩

/-- C9 witness: a customer registered five days ago is accepted by the
PromotionService path of the amended rule. -/
theorem claim9_witness :
    PromotionService.checkCustomerEligibility recentCustomer newCustPromo [] now0
      = true :=
  ((claim9_amended recentCustomer newCustPromo now0 rfl).1).trans (by decide)

/-- C1 (amended): the five-tag strict OR described by the claim is
implemented only by PromotionService.checkCustomerEligibility, and only
when the comma-split tag set does not contain "all" (with a truthy
customer_segments different from the exact string "all"); the
AIAgentService path instead tests substring containment on the raw
string and implements only the seniors, new_customers and
loyalty_members conditions, so diabetic_customers and regular_customers
never match there. -/
theorem claim1_amended (customer : Customer) (promotion : Promotion)
    (products : List Product) (today : JsDate) (s : String)
    (hs : promotion.customer_segments = some s) (hne : s ≠ "") (hna : s ≠ "all")
    (hnall : (jsSplitComma s).contains "all" = false) :
    PromotionService.checkCustomerEligibility customer promotion products today
      = ((jsSplitComma s).contains "seniors" &&
          decide (PromotionService.calculateAge customer.date_of_birth today ≥ 65) ||
         ((jsSplitComma s).contains "new_customers" &&
          PromotionService.newCustomerCond customer today) ||
         ((jsSplitComma s).contains "loyalty_members" &&
          decide (customer.loyalty_points > 100)) ||
         ((jsSplitComma s).contains "diabetic_customers" &&
          PromotionService.diabeticCond customer) ||
         ((jsSplitComma s).contains "regular_customers" &&
          decide (customer.prescription_count > 5)))
    ∧ AIAgentService.checkCustomerSegmentEligibility customer s today
      = (strIncludes s "seniors" &&
          (match AIAgentService.calculateAge customer.date_of_birth today with
           | some a => decide (a ≥ 65)
           | none => false) ||
         (strIncludes s "new_customers" &&
          PromotionService.newCustomerCond customer today) ||
         (strIncludes s "loyalty_members" &&
          decide (customer.loyalty_points > 100))) := by
  constructor
  · have h7 : truthyStr (some s) = true := by simp [truthyStr, bne_iff_ne, hne]
    have h8 : (s != "all") = true := by simp [bne_iff_ne, hna]
    simp only [PromotionService.checkCustomerEligibility, hs, Option.getD_some,
      h7, h8, Bool.and_self, if_true, hnall, Bool.not_false]
    exact boolChainFive _ _ _ _ _
  · simp only [AIAgentService.checkCustomerSegmentEligibility]
    exact boolChainThree _ _ _

/-- C1 counterexample: a diabetic customer matching the
diabetic_customers tag is eligible under the claimed five-tag rule, but
the AIAgentService code path (which the claim asserts implements the
same check) rejects them. -/
theorem claim1_counterexample :
    specSegmentEligible diabCustomer (some "diabetic_customers") now0 = true
    ∧ AIAgentService.checkCustomerSegmentEligibility diabCustomer
        "diabetic_customers" now0 = false :=
  ⟨by decide, by decide⟩

/-- C1 witness: the amended rule applied to the diabetic customer and
the diabetic_customers promotion on the PromotionService path. -/
theorem claim1_witness :
    PromotionService.checkCustomerEligibility diabCustomer diabPromo [] now0 = true :=
  ((claim1_amended diabCustomer diabPromo [] now0 "diabetic_customers" rfl
      (by decide) (by decide) (by decide)).1).trans (by decide)

/-- C2: with the promotion and customer found and the customer eligible,
an order total below a truthy min_purchase_amount rejects the whole
application with the minimum-purchase reason and no reduced discount;
otherwise the application succeeds with discount discountAmountOf and
finalTotal = orderTotal - discount.  The discount is orderTotal * pct /
100 when a non-zero percentage is configured (taking precedence over any
flat amount), else a configured non-zero flat discount_amount, and
clampDiscount caps it at a truthy max_discount_amount exactly when it
exceeds the cap.  The computation is a pure function of the promotion
and order inputs, hence deterministic. -/
theorem claim2_discount (promotions : List Promotion) (customers : List Customer)
    (pid cid : String) (orderTotal : ℚ) (products : List Product) (today : JsDate)
    (promotion : Promotion) (customer : Customer)
    (hp : PromotionService.getPromotionById promotions pid = some promotion)
    (hc : PromotionService.findCustomerById customers cid = some customer)
    (he : PromotionService.checkCustomerEligibility customer promotion products today
        = true) :
    (truthyQ promotion.min_purchase_amount = true →
      orderTotal < promotion.min_purchase_amount.getD 0 →
      (PromotionService.applyPromotion promotions customers pid cid orderTotal
          products today).1
        = .error (.minPurchase (promotion.min_purchase_amount.getD 0)))
    ∧ ((truthyQ promotion.min_purchase_amount = false ∨
        promotion.min_purchase_amount.getD 0 ≤ orderTotal) →
      (PromotionService.applyPromotion promotions customers pid cid orderTotal
          products today).1
        = .ok { discountAmount := PromotionService.discountAmountOf promotion orderTotal,
                finalTotal :=
                  orderTotal - PromotionService.discountAmountOf promotion orderTotal,
                promotionId := promotion.promotion_id,
                promotionName := promotion.name,
                promotionDescription := promotion.description })
    ∧ (∀ pct : ℚ, promotion.discount_percentage = some pct → pct ≠ 0 →
        PromotionService.discountAmountOf promotion orderTotal
          = PromotionService.clampDiscount promotion (orderTotal * pct / 100))
    ∧ ((promotion.discount_percentage = none ∨ promotion.discount_percentage = some 0) →
        ∀ amt : ℚ, promotion.discount_amount = some amt → amt ≠ 0 →
        PromotionService.discountAmountOf promotion orderTotal
          = PromotionService.clampDiscount promotion amt)
    ∧ (∀ x : ℚ,
        (truthyQ promotion.max_discount_amount = true →
          promotion.max_discount_amount.getD 0 < x →
          PromotionService.clampDiscount promotion x
            = promotion.max_discount_amount.getD 0)
        ∧ ((truthyQ promotion.max_discount_amount = false ∨
            x ≤ promotion.max_discount_amount.getD 0) →
          PromotionService.clampDiscount promotion x = x)) := by
  refine ⟨?_, ?_, ?_, ?_, ?_⟩
  · intro ht hlt
    unfold PromotionService.applyPromotion
    simp [hp, hc, he, ht, hlt]
  · intro hmin
    unfold PromotionService.applyPromotion
    have hcond : (truthyQ promotion.min_purchase_amount &&
        decide (orderTotal < promotion.min_purchase_amount.getD 0)) = false := by
      rcases hmin with h | h
      · simp [h]
      · simp [not_lt_of_ge h]
    simp [hp, hc, he, hcond]
  · intro pct hpct hpct0
    unfold PromotionService.discountAmountOf
    have : truthyQ promotion.discount_percentage = true := by
      simp [truthyQ, hpct, bne_iff_ne, hpct0]
    rw [this, if_pos rfl, hpct]
    rfl
  · intro hpz amt hamt hamt0
    unfold PromotionService.discountAmountOf
    have h0 : truthyQ promotion.discount_percentage = false := by
      rcases hpz with h | h <;> simp [truthyQ, h]
    have h1 : truthyQ promotion.discount_amount = true := by
      simp [truthyQ, hamt, bne_iff_ne, hamt0]
    rw [h0, h1]
    simp [hamt]
  · intro x
    constructor
    · intro ht hx
      unfold PromotionService.clampDiscount
      simp [ht, hx]
    · intro h
      unfold PromotionService.clampDiscount
      rcases h with h | h
      · simp [h]
      · simp [not_lt_of_ge h]

/-- C2 witness: the ten-percent no-cap demo promotion on a 50-dollar
order yields exactly a 5-dollar discount and a 45-dollar final total. -/
theorem claim2_witness :
    (PromotionService.applyPromotion demoPromotions demoCustomers "PROMO10" "CUST-D"
        50 [] now0).1
      = .ok { discountAmount := 5, finalTotal := 45, promotionId := "PROMO10",
              promotionName := "Ten percent off", promotionDescription := "demo" } := by
  have h := (claim2_discount demoPromotions demoCustomers "PROMO10" "CUST-D" 50 []
      now0 pctPromo diabCustomer (by decide) (by decide) (by decide)).2.1
    (Or.inl (by decide))
  rw [h]
  have hd : PromotionService.discountAmountOf pctPromo 50 = 5 := by
    unfold PromotionService.discountAmountOf PromotionService.clampDiscount
    norm_num [truthyQ, pctPromo]
  rw [hd]
  norm_num
  exact ⟨rfl, rfl, rfl⟩

/-- mostRecentRow only answers none on the empty list. -/
theorem mostRecentRow_eq_none {l : List ConversationRow}
    (h : AIAgentService.mostRecentRow l = none) : l = [] := by
  cases l with
  | nil => rfl
  | cons a t =>
    unfold AIAgentService.mostRecentRow at h
    cases hm : AIAgentService.mostRecentRow t with
    | none => rw [hm] at h; simp at h
    | some b =>
      rw [hm] at h
      dsimp only at h
      split at h <;> simp_all

/-- mostRecentRow returns a member with maximal created_at. -/
theorem mostRecentRow_spec :
    ∀ (l : List ConversationRow) (r : ConversationRow),
      AIAgentService.mostRecentRow l = some r →
      r ∈ l ∧ ∀ x ∈ l, x.created_at ≤ r.created_at := by
  intro l
  induction l with
  | nil => intro r h; simp [AIAgentService.mostRecentRow] at h
  | cons a t ih =>
    intro r h
    unfold AIAgentService.mostRecentRow at h
    cases hm : AIAgentService.mostRecentRow t with
    | none =>
      rw [hm] at h
      have ht : t = [] := mostRecentRow_eq_none hm
      subst ht
      simp at h
      subst h
      simp
    | some b =>
      rw [hm] at h
      dsimp only at h
      obtain ⟨hbmem, hbmax⟩ := ih b hm
      by_cases hb : b.created_at > a.created_at
      · rw [if_pos hb] at h
        cases h
        refine ⟨List.mem_cons_of_mem a hbmem, ?_⟩
        intro x hx
        rcases List.mem_cons.mp hx with hxa | hxt
        · subst hxa; omega
        · exact hbmax x hxt
      · rw [if_neg hb] at h
        cases h
        refine ⟨List.mem_cons_self a t, ?_⟩
        intro x hx
        rcases List.mem_cons.mp hx with hxa | hxt
        · subst hxa; omega
        · have := hbmax x hxt; omega

/-- C8: getConversationContext is total (every branch yields a context,
no error propagates): a cached context is returned as is; on a cache
miss with a failing query the empty context is returned; on a cache miss
with no row for the customer a fresh empty context (customer id, no
turns, no last intent) is returned; otherwise the loaded row is one of
the customer with maximal created_at. -/
theorem claim8_getContext (cache : Cache) (customerId : String) (now : Int) :
    (∀ ctx, cacheGet cache customerId = some ctx →
      ∀ lo, (AIAgentService.getConversationContext cache lo customerId now).1 = ctx)
    ∧ (cacheGet cache customerId = none →
      (∀ e, (AIAgentService.getConversationContext cache (.error e) customerId now).1
          = AIAgentService.emptyContextOnError customerId)
      ∧ (∀ rows : List ConversationRow,
        (AIAgentService.mostRecentRow
            (rows.filter fun r => r.customer_id == customerId) = none →
          (AIAgentService.getConversationContext cache (.ok rows) customerId
              now).1.recent_messages = []
          ∧ (AIAgentService.getConversationContext cache (.ok rows) customerId
              now).1.last_intent = none
          ∧ (AIAgentService.getConversationContext cache (.ok rows) customerId
              now).1.customer_id = some customerId)
        ∧ (∀ r, AIAgentService.mostRecentRow
              (rows.filter fun r2 => r2.customer_id == customerId) = some r →
          (AIAgentService.getConversationContext cache (.ok rows) customerId now).1
            = AIAgentService.contextOfRow r
          ∧ r ∈ rows ∧ r.customer_id = customerId
          ∧ ∀ x ∈ rows, x.customer_id = customerId →
              x.created_at ≤ r.created_at))) := by
  constructor
  · intro ctx hctx lo
    unfold AIAgentService.getConversationContext
    rw [hctx]
  · intro hnone
    refine ⟨fun e => ?_, fun rows => ⟨fun hmr => ?_, fun r hmr => ?_⟩⟩
    · unfold AIAgentService.getConversationContext
      rw [hnone]
    · unfold AIAgentService.getConversationContext
      rw [hnone]
      simp [hmr]
    · obtain ⟨hmem, hmax⟩ := mostRecentRow_spec _ _ hmr
      have hmemf := List.mem_filter.mp hmem
      refine ⟨?_, hmemf.1, by simpa using hmemf.2, ?_⟩
      · unfold AIAgentService.getConversationContext
        rw [hnone]
        simp only [hmr]
      · intro x hx hxid
        exact hmax x (List.mem_filter.mpr ⟨hx, by simpa using hxid⟩)

/-- C8 witness: empty cache and a failing query yield the empty
context. -/
theorem claim8_witness :
    (AIAgentService.getConversationContext [] (.error "db down") "CUST-D" 0).1
      = AIAgentService.emptyContextOnError "CUST-D" :=
  ((claim8_getContext [] "CUST-D" 0).2 rfl).1 "db down"

/-- A Map.set followed by a get of the same key yields the stored
value. -/
theorem cacheGet_cacheSet_self (m : Cache) (k : String) (v : ConversationContext) :
    cacheGet (cacheSet m k v) k = some v := by
  induction m with
  | nil => simp [cacheSet, cacheGet]
  | cons kv t ih =>
    unfold cacheSet
    by_cases h : kv.1 == k
    · rw [if_pos h]
      simp [cacheGet]
    · rw [if_neg h]
      unfold cacheGet at ih ⊢
      rw [List.find?_cons_of_neg]
      · exact ih
      · simpa using h

/-- The history truncation keeps at most ten messages. -/
theorem truncate_length_le (l : List ChatTurn) :
    (if l.length > 10 then jsTakeLast 10 l else l).length ≤ 10 := by
  by_cases h : l.length > 10
  · rw [if_pos h]
    simp [jsTakeLast]
    omega
  · rw [if_neg h]
    omega

/-- The history truncation is a suffix: it drops oldest entries only. -/
theorem truncate_is_drop (l : List ChatTurn) :
    ∃ k, (if l.length > 10 then jsTakeLast 10 l else l) = l.drop k := by
  by_cases h : l.length > 10
  · exact ⟨l.length - 10, by rw [if_pos h]; rfl⟩
  · exact ⟨0, by rw [if_neg h, List.drop_zero]⟩

/-- The history truncation is the identity on short histories. -/
theorem truncate_of_short (l : List ChatTurn) (h : l.length ≤ 10) :
    (if l.length > 10 then jsTakeLast 10 l else l) = l := by
  rw [if_neg (by omega)]

/-- The upsert leaves a row for the customer holding exactly the written
history and timestamp. -/
theorem saveConversation_lookup (table : List ConversationRow) (cid : String)
    (msgs : List ChatTurn) (now : Int) :
    ∃ row, AIAgentService.lookupConversation
        (AIAgentService.saveConversationContext table cid msgs now) cid = some row
      ∧ row.recent_messages = msgs ∧ row.updated_at = now := by
  induction table with
  | nil =>
    refine ⟨{ customer_id := cid, recent_messages := msgs, last_intent := none,
              created_at := now, updated_at := now }, ?_, rfl, rfl⟩
    simp [AIAgentService.saveConversationContext, AIAgentService.lookupConversation]
  | cons r t ih =>
    unfold AIAgentService.saveConversationContext
    by_cases h : r.customer_id == cid
    · rw [if_pos h]
      refine ⟨{ r with recent_messages := msgs, updated_at := now }, ?_, rfl, rfl⟩
      unfold AIAgentService.lookupConversation
      rw [List.find?_cons_of_pos]
      exact h
    · rw [if_neg h]
      obtain ⟨row, hl, h1, h2⟩ := ih
      refine ⟨row, ?_, h1, h2⟩
      unfold AIAgentService.lookupConversation at hl ⊢
      rw [List.find?_cons_of_neg]
      · exact hl
      · simpa using h

/-- The upsert touches no row of another customer. -/
theorem saveConversation_preserves (table : List ConversationRow) (cid : String)
    (msgs : List ChatTurn) (now : Int) :
    ∀ r ∈ table, r.customer_id ≠ cid →
      r ∈ AIAgentService.saveConversationContext table cid msgs now := by
  induction table with
  | nil => intro r hr; cases hr
  | cons a t ih =>
    intro r hr hne
    unfold AIAgentService.saveConversationContext
    by_cases h : a.customer_id == cid
    · rw [if_pos h]
      rcases List.mem_cons.mp hr with h1 | h1
      · exact absurd (by simpa using h : a.customer_id = cid) (h1 ▸ hne)
      · exact List.mem_cons_of_mem _ h1
    · rw [if_neg h]
      rcases List.mem_cons.mp hr with h1 | h1
      · subst h1; exact List.mem_cons_self _ _
      · exact List.mem_cons_of_mem _ (ih r h1 hne)

/-- C5: appendTurn (updateConversationContext) caches a context whose
history is the old history plus the user turn then the assistant turn,
truncated by dropping oldest entries only, never longer than ten and
untruncated when ten or fewer; the classified intent is recorded as the
last intent; and the conversations table afterwards holds an upserted
row for the customer with exactly that history (rows of other customers
are untouched). -/
theorem claim5_appendTurn (cache : Cache) (table : List ConversationRow)
    (customerId userMessage aiResponse intent : String) (now : Int) :
    ∃ ctx2 : ConversationContext, ∃ row : ConversationRow,
      cacheGet (AIAgentService.updateConversationContext cache table customerId
          userMessage aiResponse intent now).1 customerId = some ctx2
      ∧ (∃ k, ctx2.recent_messages
          = (((cacheGet cache customerId).getD
                AIAgentService.bareContext).recent_messages
             ++ [(⟨"user", userMessage⟩ : ChatTurn), ⟨"assistant", aiResponse⟩]).drop k)
      ∧ ctx2.recent_messages.length ≤ 10
      ∧ ((((cacheGet cache customerId).getD
            AIAgentService.bareContext).recent_messages
           ++ [(⟨"user", userMessage⟩ : ChatTurn), ⟨"assistant", aiResponse⟩]).length ≤ 10 →
          ctx2.recent_messages
            = ((cacheGet cache customerId).getD
                AIAgentService.bareContext).recent_messages
              ++ [(⟨"user", userMessage⟩ : ChatTurn), ⟨"assistant", aiResponse⟩])
      ∧ ctx2.last_intent = some intent
      ∧ AIAgentService.lookupConversation
          (AIAgentService.updateConversationContext cache table customerId
            userMessage aiResponse intent now).2 customerId = some row
      ∧ row.recent_messages = ctx2.recent_messages
      ∧ row.updated_at = now
      ∧ ∀ r ∈ table, r.customer_id ≠ customerId →
          r ∈ (AIAgentService.updateConversationContext cache table customerId
              userMessage aiResponse intent now).2 := by
  obtain ⟨row, hrow, hrmsgs, hrupd⟩ := saveConversation_lookup table customerId
    (if ((((cacheGet cache customerId).getD
          AIAgentService.bareContext).recent_messages
        ++ [(⟨"user", userMessage⟩ : ChatTurn), ⟨"assistant", aiResponse⟩]).length > 10) then
      jsTakeLast 10 (((cacheGet cache customerId).getD
          AIAgentService.bareContext).recent_messages
        ++ [(⟨"user", userMessage⟩ : ChatTurn), ⟨"assistant", aiResponse⟩])
    else
      ((cacheGet cache customerId).getD
          AIAgentService.bareContext).recent_messages
        ++ [(⟨"user", userMessage⟩ : ChatTurn), ⟨"assistant", aiResponse⟩]) now
  refine ⟨_, row, cacheGet_cacheSet_self _ _ _, ?_, ?_, ?_, rfl, hrow, ?_, hrupd, ?_⟩
  · exact truncate_is_drop _
  · exact truncate_length_le _
  · intro hshort
    exact truncate_of_short _ hshort
  · exact hrmsgs
  · intro r hr hne
    exact saveConversation_preserves table customerId _ now r hr hne

/-- C5 witness: one turn appended to an empty store. -/
theorem claim5_witness :
    ∃ ctx2 : ConversationContext, ∃ row : ConversationRow,
      cacheGet (AIAgentService.updateConversationContext [] [] "CUST-D" "hi" "hello"
          "general_inquiry" 7).1 "CUST-D" = some ctx2
      ∧ (∃ k, ctx2.recent_messages
          = (((cacheGet [] "CUST-D").getD
                AIAgentService.bareContext).recent_messages
             ++ [(⟨"user", "hi"⟩ : ChatTurn), ⟨"assistant", "hello"⟩]).drop k)
      ∧ ctx2.recent_messages.length ≤ 10
      ∧ ((((cacheGet [] "CUST-D").getD
            AIAgentService.bareContext).recent_messages
           ++ [(⟨"user", "hi"⟩ : ChatTurn), ⟨"assistant", "hello"⟩]).length ≤ 10 →
          ctx2.recent_messages
            = ((cacheGet [] "CUST-D").getD
                AIAgentService.bareContext).recent_messages
              ++ [(⟨"user", "hi"⟩ : ChatTurn), ⟨"assistant", "hello"⟩])
      ∧ ctx2.last_intent = some "general_inquiry"
      ∧ AIAgentService.lookupConversation
          (AIAgentService.updateConversationContext [] [] "CUST-D" "hi" "hello"
            "general_inquiry" 7).2 "CUST-D" = some row
      ∧ row.recent_messages = ctx2.recent_messages
      ∧ row.updated_at = 7
      ∧ ∀ r ∈ ([] : List ConversationRow), r.customer_id ≠ "CUST-D" →
          r ∈ (AIAgentService.updateConversationContext [] [] "CUST-D" "hi" "hello"
              "general_inquiry" 7).2 :=
  claim5_appendTurn [] [] "CUST-D" "hi" "hello" "general_inquiry" 7

/-- Unfolding lemma for keepFirstById on nil. -/
theorem keepFirstById_nil : keepFirstById [] = [] := by
  rw [keepFirstById]

/-- Unfolding lemma for keepFirstById on cons. -/
theorem keepFirstById_cons (a : Product) (t : List Product) :
    keepFirstById (a :: t)
      = a :: keepFirstById (t.filter fun q => !(q.id == a.id)) := by
  rw [keepFirstById]

/-- The indexed filter only looks at the callback pointwise. -/
theorem jsFilterWithIndex_congr {cb1 cb2 : Product → Nat → Bool}
    (h : ∀ p j, cb1 p j = cb2 p j) :
    ∀ (l : List Product) (i : Nat),
      jsFilterWithIndex cb1 l i = jsFilterWithIndex cb2 l i := by
  intro l
  induction l with
  | nil => intro i; rfl
  | cons a t ih =>
    intro i
    unfold jsFilterWithIndex
    rw [h a i, ih (i + 1)]

/-- Starting the indexed filter one position later is the same as
shifting the callback. -/
theorem jsFilterWithIndex_shift (cb : Product → Nat → Bool) :
    ∀ (l : List Product) (i : Nat),
      jsFilterWithIndex cb l (i + 1)
        = jsFilterWithIndex (fun p j => cb p (j + 1)) l i := by
  intro l
  induction l with
  | nil => intro i; rfl
  | cons a t ih =>
    intro i
    unfold jsFilterWithIndex
    rw [ih (i + 1)]

/-- Successor arguments can be stripped from a Nat equality test. -/
theorem natBeqSucc (m n : Nat) : ((m + 1 : Nat) == (n + 1)) = (m == n) := by
  by_cases h : m = n
  · subst h; simp
  · rw [beq_eq_false_iff_ne.mpr (by omega : m + 1 ≠ n + 1),
      beq_eq_false_iff_ne.mpr h]

/-- The Nat equality test is symmetric. -/
theorem natBeqComm (m n : Nat) : (m == n) = (n == m) := by
  by_cases h : m = n
  · subst h; rfl
  · rw [beq_eq_false_iff_ne.mpr h, beq_eq_false_iff_ne.mpr (Ne.symm h)]

/-- Generalized first-occurrence characterization of the JS dedup: with
an extra excluded id set S, the index-equals-findIndex filter keeps
exactly the first occurrence of each id outside S. -/
theorem jsDedup_gen :
    ∀ (l : List Product) (S : List Nat),
      jsFilterWithIndex
        (fun p i => !(S.contains p.id) && (l.findIdx (fun q => q.id == p.id) == i))
        l 0
        = keepFirstById (l.filter fun q => !(S.contains q.id)) := by
  intro l
  induction l with
  | nil => intro S; simp [jsFilterWithIndex, keepFirstById_nil]
  | cons a t ih =>
    intro S
    have hhead : (!(S.contains a.id) &&
        ((a :: t).findIdx (fun q => q.id == a.id) == 0)) = !(S.contains a.id) := by
      rw [List.findIdx_cons]
      simp
    by_cases hS : S.contains a.id = true
    · have hcb : ∀ (p : Product) (j : Nat),
          (!(S.contains p.id) && ((a :: t).findIdx (fun q => q.id == p.id) == j + 1))
            = (!(S.contains p.id) && (t.findIdx (fun q => q.id == p.id) == j)) := by
        intro p j
        rw [List.findIdx_cons]
        by_cases hap : (a.id == p.id) = true
        · have hmem : S.contains p.id = true := by
            rw [← eq_of_beq hap]; exact hS
          rw [hap, hmem]
          rfl
        · have hap2 : (a.id == p.id) = false := by
            cases h2 : (a.id == p.id)
            · rfl
            · exact absurd h2 hap
          rw [hap2, cond_false, natBeqSucc]
      unfold jsFilterWithIndex
      rw [hhead, hS]
      rw [if_neg (by simp)]
      rw [jsFilterWithIndex_shift, jsFilterWithIndex_congr hcb, ih S,
        List.filter_cons_of_neg (by rw [hS]; simp)]
    · have hS2 : S.contains a.id = false := by
        cases h2 : S.contains a.id
        · rfl
        · exact absurd h2 hS
      have hcb : ∀ (p : Product) (j : Nat),
          (!(S.contains p.id) && ((a :: t).findIdx (fun q => q.id == p.id) == j + 1))
            = (!((a.id :: S).contains p.id) &&
                (t.findIdx (fun q => q.id == p.id) == j)) := by
        intro p j
        rw [List.findIdx_cons]
        have hc : (a.id :: S).contains p.id = ((a.id == p.id) || S.contains p.id) := by
          rw [List.contains_cons, natBeqComm p.id a.id]
        by_cases hap : (a.id == p.id) = true
        · rw [hap, hc, hap]
          simp
        · have hap2 : (a.id == p.id) = false := by
            cases h2 : (a.id == p.id)
            · rfl
            · exact absurd h2 hap
          rw [hap2, hc, hap2, cond_false, natBeqSucc]
          simp
      unfold jsFilterWithIndex
      rw [hhead, hS2]
      rw [if_pos (by simp)]
      rw [jsFilterWithIndex_shift, jsFilterWithIndex_congr hcb, ih (a.id :: S),
        List.filter_cons_of_pos (by rw [hS2]; simp), keepFirstById_cons]
      congr 1
      rw [List.filter_filter]
      congr 1
      apply List.filter_congr
      intro x _
      rw [show (a.id :: S).contains x.id = ((a.id == x.id) || S.contains x.id) by
        rw [List.contains_cons, natBeqComm x.id a.id]]
      rw [Bool.not_or]
      rw [show (x.id == a.id) = (a.id == x.id) from natBeqComm x.id a.id]

/-- The JS filter-findIndex dedup keeps the first occurrence of each
product id. -/
theorem jsDedupById_eq_keepFirst (l : List Product) :
    jsDedupById l = keepFirstById l := by
  unfold jsDedupById
  have h0 := jsDedup_gen l []
  have hcb : ∀ (p : Product) (j : Nat),
      (l.findIdx (fun q => q.id == p.id) == j)
        = (!(([] : List Nat).contains p.id) &&
            (l.findIdx (fun q => q.id == p.id) == j)) := by
    intro p j
    simp
  rw [jsFilterWithIndex_congr hcb, h0]
  congr 1
  simp

/-- Structural properties of the first-occurrence dedup: it is a
sublist, its ids are pairwise distinct, and every input id is
represented. -/
theorem keepFirst_props :
    ∀ (n : Nat) (l : List Product), l.length ≤ n →
      List.Sublist (keepFirstById l) l
      ∧ ((keepFirstById l).map (fun p => p.id)).Nodup
      ∧ ∀ p ∈ l, ∃ q ∈ keepFirstById l, q.id = p.id := by
  intro n
  induction n with
  | zero =>
    intro l hl
    have : l = [] := List.eq_nil_of_length_eq_zero (Nat.le_zero.mp hl)
    subst this
    simp [keepFirstById_nil]
  | succ n ih =>
    intro l hl
    cases l with
    | nil => simp [keepFirstById_nil]
    | cons a t =>
      have ht : t.length ≤ n := by
        have := hl
        simp only [List.length_cons] at this
        omega
      have hlt : (t.filter fun q => !(q.id == a.id)).length ≤ n :=
        le_trans (List.length_filter_le _ _) ht
      obtain ⟨ihs, ihn, ihc⟩ := ih _ hlt
      rw [keepFirstById_cons]
      refine ⟨?_, ?_, ?_⟩
      · exact (ihs.trans (List.filter_sublist _)).cons₂ a
      · rw [List.map_cons]
        refine List.nodup_cons.mpr ⟨?_, ihn⟩
        intro hmem
        obtain ⟨q, hq, hqid⟩ := List.mem_map.mp hmem
        have hqf := ihs.subset hq
        have := (List.mem_filter.mp hqf).2
        rw [hqid] at this
        simp at this
      · intro p hp
        rcases List.mem_cons.mp hp with h | h
        · exact ⟨a, List.mem_cons_self _ _, by rw [h]⟩
        · by_cases hid : p.id = a.id
          · exact ⟨a, List.mem_cons_self _ _, hid.symm⟩
          · have hpf : p ∈ t.filter fun q => !(q.id == a.id) :=
              List.mem_filter.mpr ⟨h, by simpa using hid⟩
            obtain ⟨q, hq, hqid⟩ := ihc p hpf
            exact ⟨q, List.mem_cons_of_mem _ hq, hqid⟩

/-- C7: the product_search dispatch concatenates the per-entity name
searches, symptom searches and category searches, keeps the FIRST row of
each product id (the filter-findIndex dedup equals the first-occurrence
dedup), and caps the answer at 10: the result is a sublist of the union,
its ids are pairwise distinct, it has at most 10 rows, and every product
of the union has its id represented unless the cap was reached. -/
theorem claim7_searchUnion (table : List Product)
    (entities : AIAgentService.EntitiesValue) :
    AIAgentService.searchProducts table entities
      = (keepFirstById
          (((AIAgentService.entProducts entities).getD [] |>.flatMap fun t =>
              ProductService.searchProducts table t)
           ++ ((AIAgentService.entSymptoms entities).getD [] |>.flatMap fun s =>
              ProductService.searchBySymptom table s)
           ++ ((AIAgentService.entCategories entities).getD [] |>.flatMap fun c =>
              ProductService.getProductsByCategory table c))).take 10
    ∧ (AIAgentService.searchProducts table entities).Sublist
        (((AIAgentService.entProducts entities).getD [] |>.flatMap fun t =>
            ProductService.searchProducts table t)
         ++ ((AIAgentService.entSymptoms entities).getD [] |>.flatMap fun s =>
            ProductService.searchBySymptom table s)
         ++ ((AIAgentService.entCategories entities).getD [] |>.flatMap fun c =>
            ProductService.getProductsByCategory table c))
    ∧ ((AIAgentService.searchProducts table entities).map (fun p => p.id)).Nodup
    ∧ (AIAgentService.searchProducts table entities).length ≤ 10
    ∧ ∀ p ∈ (((AIAgentService.entProducts entities).getD [] |>.flatMap fun t =>
            ProductService.searchProducts table t)
         ++ ((AIAgentService.entSymptoms entities).getD [] |>.flatMap fun s =>
            ProductService.searchBySymptom table s)
         ++ ((AIAgentService.entCategories entities).getD [] |>.flatMap fun c =>
            ProductService.getProductsByCategory table c)),
        (∃ q ∈ AIAgentService.searchProducts table entities, q.id = p.id)
        ∨ (AIAgentService.searchProducts table entities).length = 10 := by
  have hdef : AIAgentService.searchProducts table entities
      = (keepFirstById
          (((AIAgentService.entProducts entities).getD [] |>.flatMap fun t =>
              ProductService.searchProducts table t)
           ++ ((AIAgentService.entSymptoms entities).getD [] |>.flatMap fun s =>
              ProductService.searchBySymptom table s)
           ++ ((AIAgentService.entCategories entities).getD [] |>.flatMap fun c =>
              ProductService.getProductsByCategory table c))).take 10 := by
    unfold AIAgentService.searchProducts
    dsimp only
    rw [jsDedupById_eq_keepFirst]
  obtain ⟨hsub, hnodup, hcomp⟩ := keepFirst_props
    (((AIAgentService.entProducts entities).getD [] |>.flatMap fun t =>
        ProductService.searchProducts table t)
     ++ ((AIAgentService.entSymptoms entities).getD [] |>.flatMap fun s =>
        ProductService.searchBySymptom table s)
     ++ ((AIAgentService.entCategories entities).getD [] |>.flatMap fun c =>
        ProductService.getProductsByCategory table c)).length _ le_rfl
  refine ⟨hdef, ?_, ?_, ?_, ?_⟩
  · rw [hdef]
    exact (List.take_sublist _ _).trans hsub
  · rw [hdef, List.map_take]
    exact List.Nodup.sublist (List.take_sublist _ _) hnodup
  · rw [hdef]
    exact List.length_take_le _ _
  · intro p hp
    by_cases hlen : (keepFirstById
        (((AIAgentService.entProducts entities).getD [] |>.flatMap fun t =>
            ProductService.searchProducts table t)
         ++ ((AIAgentService.entSymptoms entities).getD [] |>.flatMap fun s =>
            ProductService.searchBySymptom table s)
         ++ ((AIAgentService.entCategories entities).getD [] |>.flatMap fun c =>
            ProductService.getProductsByCategory table c))).length ≤ 10
    · left
      obtain ⟨q, hq, hqid⟩ := hcomp p hp
      refine ⟨q, ?_, hqid⟩
      rw [hdef, List.take_of_length_le hlen]
      exact hq
    · right
      rw [hdef, List.length_take]
      omega

/-- C7 witness: searching the demo table for the aspirin entity and the
headache symptom, the aspirin row id shows up in the result. -/
theorem claim7_witness :
    ∃ q ∈ AIAgentService.searchProducts demoProducts demoEntities, q.id = 1 :=
  ((claim7_searchUnion demoProducts demoEntities).2.2.2.2 aspirinRow
      (by decide)).resolve_right (by decide)

end Pharmacy
